import Mathlib

/-!
# Verification of the `multiple-intiatives` Foundry module core

Shallow embedding of `src/scripts/multiple-initiatives.js`: the roll
decomposition, the critical adjuster hook, the partition hook, the
natural-20 duplicate hook, and the `combatRound` expiry hook.

Initiative values and modifiers are JavaScript numbers used exactly on the
inputs of interest; they are modelled as rationals (`ℚ`).  `Math.round` is
modelled as `jsRound` (round half towards positive infinity, JavaScript's
convention).  Each Foundry hook becomes a pure step function from the data
the hook reads (combatant, update payload, options, settings) to the write
it performs, and combat-level behaviour becomes explicit state passing on a
`Combat` structure.
-/

namespace MultInit

/-- JavaScript `Math.round`: round half up, `Math.round x = ⌊x + 1/2⌋`. -/
def jsRound (q : ℚ) : ℤ := ⌊q + 1/2⌋

/-! ## RollDecomposer

From `updateCombatant` hooks: `d20Value = totalRoll - initiativeMod - (bonuses / 100)`
with `bonuses = initiativeMod`.  The first (critical adjuster) hook, lines
126–134, classifies the unrounded value; the second (partition) hook, line
208, and the third (duplicate) hook, line 281, apply `Math.round` first. -/

/-- `d20Value` as all three hooks compute it before any rounding
(lines 130, 208, 281): `totalRoll - initiativeMod - bonuses/100` with
`bonuses = initiativeMod`. -/
def d20Raw (totalRoll initiativeMod : ℚ) : ℚ :=
  totalRoll - initiativeMod - initiativeMod / 100

/-- `isNat20` of the critical adjuster hook (line 131): unrounded test
`d20Value >= 20 && d20Value < 21`. -/
def isNat20Unrounded (totalRoll initiativeMod : ℚ) : Bool :=
  decide (20 ≤ d20Raw totalRoll initiativeMod) &&
  decide (d20Raw totalRoll initiativeMod < 21)

/-- `isNat1` of the critical adjuster hook (line 132): unrounded test
`d20Value < 2 && d20Value >= 1`. -/
def isNat1Unrounded (totalRoll initiativeMod : ℚ) : Bool :=
  decide (d20Raw totalRoll initiativeMod < 2) &&
  decide (1 ≤ d20Raw totalRoll initiativeMod)

/-- `isNat20` of the partition and duplicate hooks (lines 208–209, 281–282):
`Math.round` is applied to `d20Value` before the `>= 20 && < 21` test. -/
def isNat20Rounded (totalRoll initiativeMod : ℚ) : Bool :=
  decide ((20:ℤ) ≤ jsRound (d20Raw totalRoll initiativeMod)) &&
  decide (jsRound (d20Raw totalRoll initiativeMod) < 21)

/-- Modelled from the spec (§4.1), for comparison with the code: the spec
claims `d20 = T − M` and classification `isNatural20` iff
`20 ≤ round(d20) < 21`, rounding applied before classification. -/
def specNat20 (totalRoll initiativeMod : ℚ) : Bool :=
  decide ((20:ℤ) ≤ jsRound (totalRoll - initiativeMod)) &&
  decide (jsRound (totalRoll - initiativeMod) < 21)

/-! ## Data model

A combatant entry of the host's turn tracker, restricted to the fields the
module reads or writes.  The five Bool/Option fields after `initiative`
embed the module's flag namespace `flags["multiple-initiatives"]`:
`isPartition`, `natural20Duplicate`, `originalId`, `partitionIndex`,
`natural20Applied`, `natural1Applied`.  A host-created combatant has the
namespace empty (all false / none). -/

structure Settings where
  enabled : Bool
  targetInitiative : ℚ
  partitionCount : ℕ
  partitionOffset : ℚ
  natural20Boost : ℚ
  natural1Debuff : ℚ
deriving DecidableEq

structure Combatant where
  cid : ℕ
  name : List Char
  initiative : Option ℚ
  isPartition : Bool
  natural20Duplicate : Bool
  originalId : Option ℕ
  partitionIndex : Option ℕ
  natural20Applied : Bool
  natural1Applied : Bool
deriving DecidableEq

structure Combat where
  round : ℕ
  started : Bool
  combatants : List Combatant
deriving DecidableEq

/-! ## CriticalAdjuster (first `updateCombatant` hook, lines 98–168)

The hook reads the combatant, the update payload (`updateData.initiative`,
`none` when the update did not touch initiative) and the re-entry tag
`options.fromPartition`, and either performs one write back to the
combatant or none.  The write sets the new initiative and one of the
one-time flags, spreading the previously present module flags. -/

/-- The single write the critical adjuster can perform (lines 136–147 /
153–164): the new initiative value and which one-time flag it sets. -/
structure AdjWrite where
  newInitiative : ℚ
  setNat20 : Bool
  setNat1 : Bool
deriving DecidableEq

/-- First `updateCombatant` hook: guard chain (enabled, not a partition or
natural-20 duplicate, initiative present in the payload, not a module
write), then the natural-20 boost branch, then the natural-1 debuff
branch. -/
def adjusterStep (s : Settings) (c : Combatant) (initiativeMod : ℚ)
    (updInitiative : Option ℚ) (fromPartition : Bool) : Option AdjWrite :=
  if !s.enabled then none
  else if c.isPartition || c.natural20Duplicate then none
  else match updInitiative with
  | none => none
  | some totalRoll =>
    if fromPartition then none
    else if isNat20Unrounded totalRoll initiativeMod && !c.natural20Applied then
      some ⟨totalRoll + s.natural20Boost, true, false⟩
    else if isNat1Unrounded totalRoll initiativeMod && !c.natural1Applied then
      some ⟨totalRoll - s.natural1Debuff, false, true⟩
    else none

/-- Effect of an adjuster write on the combatant record: the flags spread
`...(combatant.flags?.["multiple-initiatives"] || {})` keeps every other
module flag and sets the written one. -/
def applyAdjWrite (c : Combatant) (w : AdjWrite) : Combatant :=
  { c with initiative := some w.newInitiative,
           natural20Applied := c.natural20Applied || w.setNat20,
           natural1Applied := c.natural1Applied || w.setNat1 }

/-! ## PartitionPlanner (second `updateCombatant` hook, lines 173–270)

The loop `for (let i = 1; i < partitionCount; i++)` creates one entry per
index whose value `rolledInitiative - i * partitionOffset` is positive,
where `rolledInitiative = bonuses` is the actor's static initiative
modifier.  The hook is gated on `bonuses >= targetInitiative` and the
count is capped with `Math.min(partitionCount, 10)` (line 198). -/

/-- Planned `(partitionIndex, initiative)` pairs produced by the creation
loop (lines 238–267) for an uncapped count: indices `1 … count-1`, keeping
each candidate `B - i * offset` only when it is positive. -/
def partitionPlan (B offset : ℚ) (count : ℕ) : List (ℕ × ℚ) :=
  (List.range' 1 (count - 1)).filterMap
    (fun (i : ℕ) =>
      if 0 < B - (i : ℚ) * offset then some (i, B - (i : ℚ) * offset) else none)

/-- The planner decision (line 214): partition only when the static bonus
meets the target, otherwise no entries at all. -/
def gatedPlan (bonuses targetInitiative offset : ℚ) (count : ℕ) : List (ℕ × ℚ) :=
  if targetInitiative ≤ bonuses then partitionPlan bonuses offset count else []

/-- Second `updateCombatant` hook, plan-level view: guard chain as in the
adjuster hook, then the gate on the static bonus, with the configured count
capped at 10 (line 198). -/
def partitionHookPlan (s : Settings) (c : Combatant) (initiativeMod : ℚ)
    (updInitiative : Option ℚ) (fromPartition : Bool) : List (ℕ × ℚ) :=
  if !s.enabled then []
  else if c.isPartition || c.natural20Duplicate then []
  else match updInitiative with
  | none => []
  | some _ =>
    if fromPartition then []
    else gatedPlan initiativeMod s.targetInitiative s.partitionOffset
      (min s.partitionCount 10)

/-- Modelled from the spec's words for claim C2, to be compared with the
planner from the source: the values `B − i×offset` for `i = 1 … N−1`
restricted to values strictly greater than 0, in ascending `i`. -/
def specPlan (B offset : ℚ) (count : ℕ) : List (ℕ × ℚ) :=
  ((List.range' 1 (count - 1)).map (fun (i : ℕ) => (i, B - (i : ℚ) * offset))).filter
    (fun p => decide (0 < p.2))

/-! ## PartitionSynchronizer (lines 79–93 and 226–257) -/

/-- Helper `cleanupPartitions` (lines 79–93): delete every combatant whose
module `originalId` equals the given id, sparing natural-20 duplicates. -/
def cleanupPartitions (combat : Combat) (originalCombatantId : ℕ) : Combat :=
  { combat with
      combatants := combat.combatants.filter
        (fun c => !(c.originalId == some originalCombatantId && !c.natural20Duplicate)) }

/-- Name of a created partition entry (line 247):
`` `${actorName} - #${i + 1}` ``. -/
def mkPartitionName (actorName : List Char) (i : ℕ) : List Char :=
  actorName ++ [' ', '-', ' ', '#'] ++ Nat.toDigits 10 (i + 1)

/-- A created partition entry (lines 245–257): cloned from the original,
with the name suffixed, the planned initiative, and the module flag
namespace replaced by `{isPartition, originalId, partitionIndex}`.  The
host assigns the fresh document id, modelled by `fid`. -/
def mkPartitionEntry (base : Combatant) (actorName : List Char) (fid : ℕ → ℕ)
    (p : ℕ × ℚ) : Combatant :=
  { cid := fid p.1
    name := mkPartitionName actorName p.1
    initiative := some p.2
    isPartition := true
    natural20Duplicate := false
    originalId := some base.cid
    partitionIndex := some p.1
    natural20Applied := false
    natural1Applied := false }

/-- The synchronization performed for one combatant on a roll that meets
the gate (lines 226–257): full cleanup of its previous partitions first,
then creation of the planned entries in ascending index order. -/
def syncPartitions (combat : Combat) (c : Combatant) (actorName : List Char)
    (fid : ℕ → ℕ) (plan : List (ℕ × ℚ)) : Combat :=
  let cleaned := cleanupPartitions combat c.cid
  { cleaned with
      combatants := cleaned.combatants ++ plan.map (mkPartitionEntry c actorName fid) }

/-! ## Natural-20 duplicate hook (third `updateCombatant` hook, lines 272–354)

This hook has no `enabled`, no partition/duplicate-tag and no
`fromPartition` guard: it fires on every combatant update.  It classifies
the rounded d20, checks round 1, re-reads the combatant, takes the highest
initiative among the combatant and everything pointing at it via
`originalId`, adds 100, and creates one duplicate entry unless the combat
already holds one anywhere or the computed value is not positive. -/

/-- JavaScript `Math.max` over the mapped initiatives: the list is fed the
head as the running maximum (in the hook it is always non-empty because
the looked-up combatant itself belongs to it). -/
def maxListQ : List ℚ → ℚ
  | [] => 0
  | a :: t => t.foldl max a

/-- The combatants the hook considers related (lines 314–317): the
combatant itself plus everything whose module `originalId` points at it. -/
def relatedCombatants (combat : Combat) (cid : ℕ) : List Combatant :=
  combat.combatants.filter (fun c => c.cid == cid || c.originalId == some cid)

/-- Per-combat guard (lines 323–325): some combatant anywhere in the combat
already carries the `natural20Duplicate` tag. -/
def hasNatural20Duplicate (combat : Combat) : Bool :=
  combat.combatants.any (fun c => c.natural20Duplicate)

/-- Name of the created duplicate (line 337): `` `${actorName} - Nat 20` ``. -/
def mkDupName (actorName : List Char) : List Char :=
  actorName ++ [' ', '-', ' ', 'N', 'a', 't', ' ', '2', '0']

/-- The created bonus entry (lines 335–346): cloned from the current
(already adjusted) combatant record, module flag namespace replaced by
`{natural20Duplicate, originalId}`.  The host assigns the new id. -/
def mkDupEntry (base : Combatant) (actorName : List Char) (newId : ℕ)
    (ini : ℚ) : Combatant :=
  { cid := newId
    name := mkDupName actorName
    initiative := some ini
    isPartition := false
    natural20Duplicate := true
    originalId := some base.cid
    partitionIndex := none
    natural20Applied := false
    natural1Applied := false }

/-- Third `updateCombatant` hook: the entry it creates, if any.  A payload
without initiative makes `d20Value` NaN in the source, which fails the
natural-20 test, hence `none` on the `none` payload. -/
def nat20DuplicateStep (combat : Combat) (cid : ℕ) (actorName : List Char)
    (initiativeMod : ℚ) (updInitiative : Option ℚ) (newId : ℕ) : Option Combatant :=
  match updInitiative with
  | none => none
  | some totalRoll =>
    if isNat20Rounded totalRoll initiativeMod then
      if !combat.started || combat.round == 1 then
        match combat.combatants.find? (fun c => c.cid == cid) with
        | none => none
        | some updated =>
          let highest := 100 + maxListQ
            ((relatedCombatants combat updated.cid).map (fun c => c.initiative.getD 0))
          if !hasNatural20Duplicate combat && decide (0 < highest) then
            some (mkDupEntry updated actorName newId highest)
          else none
      else none
    else none

/-! ## Round-boundary expiry (`combatRound` hook, lines 403–415)

On a round notification with `combat.round >= 2` the hook deletes every
combatant whose lower-cased name contains the substring `"nat 20"` — a
name test, not a flag test. -/

/-- Lower-case a name character-wise, as `name.toLowerCase()` does for the
names occurring here. -/
def toLowerList (n : List Char) : List Char := n.map Char.toLower

/-- Whether `pat` occurs at the start of the second list. -/
def startsWithL : List Char → List Char → Bool
  | [], _ => true
  | _ :: _, [] => false
  | p :: ps, c :: cs => p == c && startsWithL ps cs

/-- JavaScript `String.prototype.includes`: `pat` occurs somewhere. -/
def hasSub (pat : List Char) : List Char → Bool
  | [] => startsWithL pat []
  | c :: rest => startsWithL pat (c :: rest) || hasSub pat rest

/-- The literal pattern of line 408. -/
def nat20Pat : List Char := ['n', 'a', 't', ' ', '2', '0']

/-- `c.name.toLowerCase().includes("nat 20")` of line 408. -/
def nameMatchesNat20 (n : List Char) : Bool := hasSub nat20Pat (toLowerList n)

/-- The combatants the `combatRound` hook deletes (lines 407–411). -/
def roundExpiryDeletes (s : Settings) (combat : Combat) : List Combatant :=
  if s.enabled && decide (2 ≤ combat.round) then
    combat.combatants.filter (fun c => nameMatchesNat20 c.name)
  else []

/-- State of the combat after the `combatRound` hook ran. -/
def applyCombatRoundHook (s : Settings) (combat : Combat) : Combat :=
  if s.enabled && decide (2 ≤ combat.round) then
    { combat with
        combatants := combat.combatants.filter (fun c => !nameMatchesNat20 c.name) }
  else combat

/-! ## Failure handling in the partition batch (lines 227 and 238–267)

`cleanupPartitions` awaits `deleteEmbeddedDocuments` with no `try` around
it, so a rejected delete aborts the handler before the creation loop runs.
Each `createEmbeddedDocuments` call sits in its own `try`/`catch` whose
handler only logs, so a failed create does not stop later iterations.  The
model threads a failure oracle: the result is the list of entries created
and the list of indices logged as errors, or `none` when the uncaught
delete rejection ended the handler. -/

/-- The creation loop under per-entry `try`/`catch`: every planned entry is
attempted; a failing one is logged and the loop continues. -/
def runCreates : List (ℕ × ℚ) → (ℕ → Bool) → List (ℕ × ℚ) × List ℕ
  | [], _ => ([], [])
  | p :: rest, createFails =>
    let r := runCreates rest createFails
    if createFails p.1 then (r.1, p.1 :: r.2) else (p :: r.1, r.2)

/-- The whole cleanup-then-create batch with its failure behaviour. -/
def runPartitionBatch (deleteFails : Bool) (plan : List (ℕ × ℚ))
    (createFails : ℕ → Bool) : Option (List (ℕ × ℚ) × List ℕ) :=
  if deleteFails then none else some (runCreates plan createFails)

/-! ## Reachable combat states (serial event model)

One logical thread (the GM client) applies host operations and the
module's writes in some order.  Host operations create combatants with an
empty module flag namespace, update initiatives, delete combatants and
advance the round (running the `combatRound` hook); the module applies
adjuster writes, partition synchronizations and guarded duplicate
creations.  This over-approximates the orders the host can deliver. -/

/-- A combatant as the host creates one: no module flags set. -/
def hostCombatant (newId : ℕ) (nm : List Char) (ini : Option ℚ) : Combatant :=
  ⟨newId, nm, ini, false, false, none, none, false, false⟩

/-- Host-side initiative write to one combatant. -/
def setInitiative (combat : Combat) (cid : ℕ) (v : Option ℚ) : Combat :=
  { combat with
      combatants := combat.combatants.map
        (fun c => if c.cid == cid then { c with initiative := v } else c) }

/-- The adjuster's write landing on its combatant inside the combat. -/
def applyAdjusterInCombat (combat : Combat) (cid : ℕ) (w : AdjWrite) : Combat :=
  { combat with
      combatants := combat.combatants.map
        (fun c => if c.cid == cid then applyAdjWrite c w else c) }

/-- Host-side deletion of one combatant. -/
def deleteCombatant (combat : Combat) (cid : ℕ) : Combat :=
  { combat with combatants := combat.combatants.filter (fun c => !(c.cid == cid)) }

/-- Appending one created entry to the combat's collection. -/
def addCombatant (combat : Combat) (c : Combatant) : Combat :=
  { combat with combatants := combat.combatants ++ [c] }

/-- Combat states reachable from a fresh combat under host operations and
the module's hook writes. -/
inductive Reachable : Combat → Prop
  | empty (round : ℕ) (started : Bool) : Reachable ⟨round, started, []⟩
  | hostCreate {s : Combat} (newId : ℕ) (nm : List Char) (ini : Option ℚ) :
      Reachable s → Reachable (addCombatant s (hostCombatant newId nm ini))
  | hostUpdate {s : Combat} (cid : ℕ) (v : Option ℚ) :
      Reachable s → Reachable (setInitiative s cid v)
  | hostDelete {s : Combat} (cid : ℕ) :
      Reachable s → Reachable (deleteCombatant s cid)
  | adjust {s : Combat} (cid : ℕ) (w : AdjWrite) :
      Reachable s → Reachable (applyAdjusterInCombat s cid w)
  | sync {s : Combat} (c : Combatant) (an : List Char) (fid : ℕ → ℕ)
      (plan : List (ℕ × ℚ)) :
      Reachable s → Reachable (syncPartitions s c an fid plan)
  | dup {s : Combat} (cid : ℕ) (an : List Char) (m : ℚ) (upd : Option ℚ)
      (newId : ℕ) (e : Combatant) :
      Reachable s → nat20DuplicateStep s cid an m upd newId = some e →
      Reachable (addCombatant s e)
  | roundAdvance {s : Combat} (st : Settings) (r : ℕ) :
      Reachable s → Reachable (applyCombatRoundHook st { s with round := r })

/-- Number of `natural20Duplicate`-tagged entries in a combat. -/
def dupCount (combat : Combat) : ℕ :=
  combat.combatants.countP (fun c => c.natural20Duplicate)

/-! ## Helper lemmas -/

lemma isNat20Unrounded_iff (T M : ℚ) :
    isNat20Unrounded T M = true ↔ 20 ≤ d20Raw T M ∧ d20Raw T M < 21 := by
  simp [isNat20Unrounded]

lemma isNat1Unrounded_iff (T M : ℚ) :
    isNat1Unrounded T M = true ↔ 1 ≤ d20Raw T M ∧ d20Raw T M < 2 := by
  simp [isNat1Unrounded, and_comm]

lemma isNat20Rounded_iff (T M : ℚ) :
    isNat20Rounded T M = true ↔ jsRound (d20Raw T M) = 20 := by
  simp only [isNat20Rounded, Bool.and_eq_true, decide_eq_true_iff]
  omega

lemma nat20_nat1_exclusive (T M : ℚ) :
    (isNat20Unrounded T M && isNat1Unrounded T M) = false := by
  cases h20 : isNat20Unrounded T M
  · simp
  · have h := (isNat20Unrounded_iff T M).mp h20
    have h1 : isNat1Unrounded T M = false := by
      rw [Bool.eq_false_iff]
      intro hc
      have := (isNat1Unrounded_iff T M).mp hc
      linarith [h.1, this.2]
    simp [h1]

lemma partitionPlan_eq_specPlan (B offset : ℚ) (count : ℕ) :
    partitionPlan B offset count = specPlan B offset count := by
  unfold partitionPlan specPlan
  induction List.range' 1 (count - 1) with
  | nil => rfl
  | cons a t ih =>
    rw [List.filterMap_cons, List.map_cons, List.filter_cons]
    by_cases h : 0 < B - (a : ℚ) * offset
    · rw [if_pos h, ih, if_pos (show (decide (0 < B - (a : ℚ) * offset)) = true by simpa using h)]
    · rw [if_neg h, ih, if_neg (show ¬(decide (0 < B - (a : ℚ) * offset)) = true by simpa using h)]

lemma partitionPlan_length_le (B offset : ℚ) (count : ℕ) :
    (partitionPlan B offset count).length ≤ count - 1 := by
  calc (partitionPlan B offset count).length
      ≤ (List.range' 1 (count - 1)).length := List.length_filterMap_le _ _
    _ = count - 1 := by simp

lemma gatedPlan_length_le (B target offset : ℚ) (count : ℕ) :
    (gatedPlan B target offset count).length ≤ count - 1 := by
  unfold gatedPlan
  split
  · exact partitionPlan_length_le B offset count
  · simp

lemma countP_filter_le {α : Type} (p q : α → Bool) (l : List α) :
    (l.filter q).countP p ≤ l.countP p := by
  induction l with
  | nil => simp
  | cons a t ih =>
    rw [List.filter_cons]
    by_cases h : q a = true
    · rw [if_pos h, List.countP_cons, List.countP_cons]
      exact Nat.add_le_add_right ih _
    · rw [if_neg h, List.countP_cons]
      exact le_trans ih (Nat.le_add_right _ _)

lemma countP_map_preserve {α : Type} (p : α → Bool) (g : α → α)
    (hg : ∀ a, p (g a) = p a) (l : List α) :
    (l.map g).countP p = l.countP p := by
  rw [List.countP_map]
  exact List.countP_congr (fun a _ => by simp [Function.comp, hg a])

lemma nat20DuplicateStep_guard {combat : Combat} {cid : ℕ} {an : List Char}
    {m : ℚ} {upd : Option ℚ} {newId : ℕ} {e : Combatant}
    (h : nat20DuplicateStep combat cid an m upd newId = some e) :
    hasNatural20Duplicate combat = false := by
  cases upd with
  | none => exact Option.noConfusion h
  | some T =>
    simp only [nat20DuplicateStep] at h
    split at h
    · split at h
      · split at h
        · exact Option.noConfusion h
        · split at h
          next hg =>
            exact ((by simpa using hg :
              hasNatural20Duplicate combat = false ∧ _)).1
          next hg => exact Option.noConfusion h
      · exact Option.noConfusion h
    · exact Option.noConfusion h

lemma dupCount_eq_zero_of_not_has {combat : Combat}
    (h : hasNatural20Duplicate combat = false) : dupCount combat = 0 := by
  unfold hasNatural20Duplicate at h
  unfold dupCount
  rw [List.countP_eq_zero]
  intro a ha
  simpa using (List.any_eq_false.mp h) a ha

lemma nat20DuplicateStep_shape {combat : Combat} {cid : ℕ} {an : List Char}
    {m : ℚ} {upd : Option ℚ} {newId : ℕ} {e : Combatant}
    (h : nat20DuplicateStep combat cid an m upd newId = some e) :
    ∃ updated ini, e = mkDupEntry updated an newId ini := by
  cases upd with
  | none => exact Option.noConfusion h
  | some T =>
    simp only [nat20DuplicateStep] at h
    split at h
    · split at h
      · split at h
        · exact Option.noConfusion h
        · split at h
          next => exact ⟨_, _, (Option.some.inj h).symm⟩
          next => exact Option.noConfusion h
      · exact Option.noConfusion h
    · exact Option.noConfusion h

lemma hasSub_append_right (pat l₁ l₂ : List Char) (h : hasSub pat l₂ = true) :
    hasSub pat (l₁ ++ l₂) = true := by
  induction l₁ with
  | nil => simpa using h
  | cons a t ih => simp [hasSub, ih]

lemma nameMatchesNat20_mkDupName (an : List Char) :
    nameMatchesNat20 (mkDupName an) = true := by
  unfold nameMatchesNat20 mkDupName toLowerList
  rw [List.map_append]
  exact hasSub_append_right _ _ _ rfl

lemma adjusterStep_tagged (s : Settings) (c : Combatant) (m : ℚ)
    (upd : Option ℚ) (fp : Bool)
    (h : (c.isPartition || c.natural20Duplicate) = true) :
    adjusterStep s c m upd fp = none := by
  simp [adjusterStep, h]

lemma partitionHookPlan_tagged (s : Settings) (c : Combatant) (m : ℚ)
    (upd : Option ℚ) (fp : Bool)
    (h : (c.isPartition || c.natural20Duplicate) = true) :
    partitionHookPlan s c m upd fp = [] := by
  simp [partitionHookPlan, h]

lemma partitionHookPlan_fromPartition (s : Settings) (c : Combatant) (m : ℚ)
    (upd : Option ℚ) : partitionHookPlan s c m upd true = [] := by
  unfold partitionHookPlan
  split
  · rfl
  · split
    · rfl
    · cases upd
      · rfl
      · rfl

lemma adjusterStep_some_false (s : Settings) (c : Combatant) (m T : ℚ) :
    adjusterStep s c m (some T) false =
      if !s.enabled then none
      else if c.isPartition || c.natural20Duplicate then none
      else if isNat20Unrounded T m && !c.natural20Applied then
        some ⟨T + s.natural20Boost, true, false⟩
      else if isNat1Unrounded T m && !c.natural1Applied then
        some ⟨T - s.natural1Debuff, false, true⟩
      else none := rfl

lemma adjusterStep_fromPartition (s : Settings) (c : Combatant) (m : ℚ)
    (upd : Option ℚ) : adjusterStep s c m upd true = none := by
  unfold adjusterStep
  split
  · rfl
  · split
    · rfl
    · cases upd
      · rfl
      · rfl

/-! ## Claim theorems -/

/-- C1 counterexample: at composite total `T = 25` and static modifier
`M = 5`, the claim's decomposition (`d20 = T − M = 20`, rounding before
classification) classifies the roll as a natural 20, but the critical
adjuster hook computes `d20Value = 19.95` unrounded and does not. -/
theorem C1_counterexample :
    specNat20 25 5 = true ∧ isNat20Unrounded 25 5 = false ∧
    d20Raw 25 5 ≠ 25 - 5 := by
  refine ⟨?_, ?_, ?_⟩ <;> norm_num [specNat20, isNat20Unrounded, d20Raw, jsRound]

/-- C1 (amended): the derived d20 face value is `T − M − M/100` (the
`M/100` tie-breaker is subtracted); the critical adjuster hook classifies
the unrounded value (`isNat20` iff `20 ≤ d20 < 21`, `isNat1` iff
`1 ≤ d20 < 2`), while the partition and duplicate hooks round first
(`isNat20` iff `round(d20) = 20`); classification always succeeds and
never yields both critical cases. -/
theorem C1_roll_decomposition (T M : ℚ) :
    d20Raw T M = T - M - M / 100 ∧
    (isNat20Unrounded T M = true ↔ 20 ≤ d20Raw T M ∧ d20Raw T M < 21) ∧
    (isNat1Unrounded T M = true ↔ 1 ≤ d20Raw T M ∧ d20Raw T M < 2) ∧
    (isNat20Rounded T M = true ↔ jsRound (d20Raw T M) = 20) ∧
    (isNat20Unrounded T M && isNat1Unrounded T M) = false :=
  ⟨rfl, isNat20Unrounded_iff T M, isNat1Unrounded_iff T M,
    isNat20Rounded_iff T M, nat20_nat1_exclusive T M⟩

/-- C2: the planner produces exactly the pairs `(i, B − i·offset)` for
`i = 1 … N−1` restricted to positive values, in ascending `i`, when the
static bonus meets the target; and the empty plan when it does not. -/
theorem C2_partition_planner (B target offset : ℚ) (N : ℕ) :
    (target ≤ B → gatedPlan B target offset N = specPlan B offset N) ∧
    (B < target → gatedPlan B target offset N = []) := by
  constructor
  · intro h
    rw [gatedPlan, if_pos h, partitionPlan_eq_specPlan]
  · intro h
    rw [gatedPlan, if_neg (not_le.mpr h)]

/-- C2 witness: `B = 50`, `target = 21`, `offset = 20`, `N = 3` yields the
plan `[30, 10]`, and `B = 20 < 21` yields the empty plan. -/
theorem C2_partition_planner_witness :
    gatedPlan 50 21 20 3 = specPlan 50 20 3 ∧
    specPlan 50 20 3 = [(1, 30), (2, 10)] ∧
    gatedPlan 20 21 20 3 = [] := by
  refine ⟨(C2_partition_planner 50 21 20 3).1 (by norm_num), ?_,
    (C2_partition_planner 20 21 20 3).2 (by norm_num)⟩
  norm_num [specPlan, List.range', List.filter_cons]

/-- C3: the critical adjustment is idempotent — a qualifying roll produces
exactly the one write (`T + boost` with `natural20Applied` set on a
natural 20, `T − debuff` with `natural1Applied` set on a natural 1), the
module-tagged follow-up notification produces no write, and a replay of
the same roll event against the written-back combatant produces no
write. -/
theorem C3_adjuster_idempotent (s : Settings) (c : Combatant) (m T : ℚ)
    (w : AdjWrite) (h : adjusterStep s c m (some T) false = some w) :
    adjusterStep s (applyAdjWrite c w) m (some w.newInitiative) true = none ∧
    adjusterStep s (applyAdjWrite c w) m (some T) false = none ∧
    ((isNat20Unrounded T m = true ∧ c.natural20Applied = false ∧
        w = ⟨T + s.natural20Boost, true, false⟩) ∨
      (isNat1Unrounded T m = true ∧ c.natural1Applied = false ∧
        w = ⟨T - s.natural1Debuff, false, true⟩)) := by
  rw [adjusterStep_some_false] at h
  split_ifs at h with h1 h2 h4 h5
  · obtain rfl := Option.some.inj h
    have h4' : isNat20Unrounded T m = true ∧ c.natural20Applied = false := by
      simpa using h4
    have h1f : isNat1Unrounded T m = false := by
      have hx := nat20_nat1_exclusive T m
      rw [h4'.1] at hx
      simpa using hx
    refine ⟨adjusterStep_fromPartition _ _ _ _, ?_, Or.inl ⟨h4'.1, h4'.2, rfl⟩⟩
    rw [adjusterStep_some_false, if_neg h1]
    simp [applyAdjWrite, h2, h1f]
  · obtain rfl := Option.some.inj h
    have h5' : isNat1Unrounded T m = true ∧ c.natural1Applied = false := by
      simpa using h5
    have h4f : (isNat20Unrounded T m && !c.natural20Applied) = false := by
      simpa using h4
    refine ⟨adjusterStep_fromPartition _ _ _ _, ?_, Or.inr ⟨h5'.1, h5'.2, rfl⟩⟩
    rw [adjusterStep_some_false, if_neg h1]
    simp [applyAdjWrite, h2, h4f]

/-- Concrete settings for the witness theorems: enabled, target 21,
count 10, offset 20, boost 10, debuff 10 (the registered defaults). -/
def s0 : Settings := ⟨true, 21, 10, 20, 10, 10⟩

/-- A plain, never-adjusted combatant. -/
def c0 : Combatant := ⟨1, [], some 5, false, false, none, none, false, false⟩

/-- The write the adjuster performs for `c0` on total 20 with modifier 0. -/
def w0 : AdjWrite := ⟨30, true, false⟩

/-- C3 witness: total 20 at modifier 0 is a natural 20; the one write sets
initiative 30, and both the follow-up notification and the replay of the
same event produce no write. -/
theorem C3_adjuster_idempotent_witness :
    adjusterStep s0 c0 0 (some 20) false = some w0 ∧
    adjusterStep s0 (applyAdjWrite c0 w0) 0 (some w0.newInitiative) true = none ∧
    adjusterStep s0 (applyAdjWrite c0 w0) 0 (some 20) false = none := by
  have h : adjusterStep s0 c0 0 (some 20) false = some w0 := by
    rw [adjusterStep_some_false]
    norm_num [s0, c0, w0, isNat20Unrounded, d20Raw]
  exact ⟨h, (C3_adjuster_idempotent s0 c0 0 20 w0 h).1,
    (C3_adjuster_idempotent s0 c0 0 20 w0 h).2.1⟩

/-- C4: in every reachable combat state at most one `natural20Duplicate`
entry exists — the guard checks the whole combat, so the first qualifying
natural-20 roller claims the bonus and the duplicate hook creates nothing
in any combat that already holds one, whichever combatant rolls. -/
theorem C4_once_per_combat :
    (∀ combat, Reachable combat → dupCount combat ≤ 1) ∧
    (∀ (combat : Combat) (cid : ℕ) (an : List Char) (m : ℚ) (upd : Option ℚ)
      (newId : ℕ), hasNatural20Duplicate combat = true →
      nat20DuplicateStep combat cid an m upd newId = none) := by
  constructor
  · intro combat h
    induction h with
    | empty r st => simp [dupCount]
    | hostCreate newId nm ini hs ih =>
      unfold dupCount at ih
      unfold dupCount addCombatant
      rw [List.countP_append]
      simpa [hostCombatant] using ih
    | hostUpdate cid v hs ih =>
      unfold dupCount at ih
      unfold dupCount setInitiative
      rw [countP_map_preserve]
      · exact ih
      · intro a
        by_cases hc : a.cid == cid <;> simp [hc]
    | hostDelete cid hs ih =>
      unfold dupCount at ih
      unfold dupCount deleteCombatant
      exact le_trans (countP_filter_le _ _ _) ih
    | adjust cid w hs ih =>
      unfold dupCount at ih
      unfold dupCount applyAdjusterInCombat
      rw [countP_map_preserve]
      · exact ih
      · intro a
        by_cases hc : a.cid == cid <;> simp [hc, applyAdjWrite]
    | sync c an fid plan hs ih =>
      unfold dupCount at ih
      unfold dupCount syncPartitions cleanupPartitions
      rw [List.countP_append]
      have hz : (List.countP (fun c => c.natural20Duplicate)
          (plan.map (mkPartitionEntry c an fid))) = 0 := by
        rw [List.countP_eq_zero]
        intro a ha
        obtain ⟨q, _, rfl⟩ := List.mem_map.mp ha
        simp [mkPartitionEntry]
      rw [hz]
      exact le_trans (by simpa using countP_filter_le _ _ _) ih
    | dup cid an m upd newId e hs hstep ih =>
      unfold dupCount at ih
      unfold dupCount addCombatant
      rw [List.countP_append]
      have h0 : dupCount _ = 0 :=
        dupCount_eq_zero_of_not_has (nat20DuplicateStep_guard hstep)
      unfold dupCount at h0
      rw [h0]
      simpa using List.countP_le_length _
    | roundAdvance st r hs ih =>
      unfold dupCount at ih
      unfold dupCount applyCombatRoundHook
      split
      · exact le_trans (countP_filter_le _ _ _) ih
      · exact ih
  · intro combat cid an m upd newId hdup
    cases upd with
    | none => rfl
    | some T =>
      simp only [nat20DuplicateStep]
      split
      · split
        · split
          · rfl
          · simp [hdup]
        · rfl
      · rfl

/-- C4 witness: a combat reached by creating one host combatant and letting
it claim the duplicate holds exactly one duplicate entry, and the duplicate
hook refuses to create another entry in that combat. -/
theorem C4_once_per_combat_witness :
    dupCount ⟨1, true, []⟩ ≤ 1 ∧
    nat20DuplicateStep ⟨1, true,
        [⟨2, [], some 130, false, true, some 1, none, false, false⟩]⟩
      1 [] 0 (some 20) 3 = none :=
  ⟨C4_once_per_combat.1 ⟨1, true, []⟩ (Reachable.empty 1 true),
    C4_once_per_combat.2 ⟨1, true,
        [⟨2, [], some 130, false, true, some 1, none, false, false⟩]⟩
      1 [] 0 (some 20) 3 rfl⟩

/-- C9 counterexample: with a failing cleanup delete and the two-entry plan
`[(1,30),(2,10)]`, the handler aborts before any create is attempted — the
remaining entries of the batch are not processed, contrary to the claim
that a delete failure is caught and the batch continues. -/
theorem C9_counterexample :
    runPartitionBatch true [(1, 30), (2, 10)] (fun _ => false) = none ∧
    runPartitionBatch true [(1, 30), (2, 10)] (fun _ => false) ≠
      some ([(1, 30), (2, 10)], []) := by
  exact ⟨rfl, by simp [runPartitionBatch]⟩

/-- C9 (amended): a failing create is caught and logged, and every other
entry of the plan is still attempted — the batch result lists exactly the
non-failing entries as created and the failing indices as logged; a
failing cleanup delete, however, is not caught and aborts the batch before
any create. -/
theorem C9_batch_failures :
    (∀ (plan : List (ℕ × ℚ)) (createFails : ℕ → Bool),
      runPartitionBatch false plan createFails =
        some (plan.filter (fun p => !createFails p.1),
          (plan.filter (fun p => createFails p.1)).map (fun p => p.1))) ∧
    (∀ (plan : List (ℕ × ℚ)) (createFails : ℕ → Bool),
      runPartitionBatch true plan createFails = none) := by
  constructor
  · intro plan f
    rw [runPartitionBatch, if_neg (by simp)]
    congr 1
    induction plan with
    | nil => rfl
    | cons p t ih =>
      simp only [runCreates, List.filter_cons]
      cases h : f p.1 <;> simp [h, ih]
  · intro plan f
    rfl

/-- C10: the creation loop runs with the configured count capped at 10, so
at most 9 extra partition entries are ever planned per roll, whatever the
configured `partitionCount`. -/
theorem C10_partition_cap (s : Settings) (c : Combatant) (m : ℚ)
    (upd : Option ℚ) (fp : Bool) :
    (partitionHookPlan s c m upd fp).length ≤ 9 ∧
    (List.range' 1 (min s.partitionCount 10 - 1)).length ≤ 9 := by
  constructor
  · unfold partitionHookPlan
    have hb : (gatedPlan m s.targetInitiative s.partitionOffset
        (min s.partitionCount 10)).length ≤ 9 := by
      calc (gatedPlan m s.targetInitiative s.partitionOffset
            (min s.partitionCount 10)).length
          ≤ min s.partitionCount 10 - 1 := gatedPlan_length_le _ _ _ _
        _ ≤ 9 := by omega
    split
    · simp
    · split
      · simp
      · split
        · simp
        · split
          · simp
          · exact hb
  · simp only [List.length_range']
    omega

/-- A combatant whose natural-20 adjustment landed at initiative −172
(total −182 with static modifier −200 is a rounded natural 20). -/
def cex5Combatant : Combatant :=
  ⟨1, [], some (-172), false, false, none, none, true, false⟩

/-- Round-1 combat holding only `cex5Combatant` and no duplicate. -/
def cex5Combat : Combat := ⟨1, true, [cex5Combatant]⟩

/-- C5 counterexample: a qualifying rounded natural 20 (total −182,
modifier −200) in round 1 of a combat with no duplicate anywhere creates
no bonus entry, because the code additionally requires
`100 + max(initiative) > 0` and here that value is −72. -/
theorem C5_counterexample :
    isNat20Rounded (-182) (-200) = true ∧
    cex5Combat.round = 1 ∧
    hasNatural20Duplicate cex5Combat = false ∧
    nat20DuplicateStep cex5Combat 1 [] (-200) (some (-182)) 7 = none := by
  refine ⟨by norm_num [isNat20Rounded, jsRound, d20Raw], rfl, rfl, ?_⟩
  simp only [nat20DuplicateStep, cex5Combat, cex5Combatant, relatedCombatants,
    hasNatural20Duplicate, maxListQ, List.find?, List.filter, List.map]
  norm_num [isNat20Rounded, jsRound, d20Raw, maxListQ]

lemma nat20DuplicateStep_creates (combat : Combat) (cid newId : ℕ)
    (an : List Char) (m T : ℚ) (updated : Combatant)
    (hnat : isNat20Rounded T m = true)
    (hturn : (!combat.started || combat.round == 1) = true)
    (hfind : combat.combatants.find? (fun c => c.cid == cid) = some updated)
    (hnodup : hasNatural20Duplicate combat = false)
    (hpos : 0 < 100 + maxListQ ((relatedCombatants combat updated.cid).map
      (fun c => c.initiative.getD 0))) :
    nat20DuplicateStep combat cid an m (some T) newId =
      some (mkDupEntry updated an newId (100 + maxListQ
        ((relatedCombatants combat updated.cid).map
          (fun c => c.initiative.getD 0)))) := by
  simp only [nat20DuplicateStep, hnat, hturn, hfind, hnodup]
  simp [hpos]

/-- C5 (amended): on a qualifying rounded natural-20 update in round 1 (or
before combat starts), with the combatant present, no duplicate anywhere
in the combat, and `100 + max(initiative over the combatant and everything
pointing at it) > 0`, the hook creates exactly one entry, cloned from the
current (adjusted) record, with that initiative. -/
theorem C5_nat20_bonus_entry (combat : Combat) (cid newId : ℕ)
    (an : List Char) (m T : ℚ) (updated : Combatant)
    (hnat : isNat20Rounded T m = true)
    (hturn : (!combat.started || combat.round == 1) = true)
    (hfind : combat.combatants.find? (fun c => c.cid == cid) = some updated)
    (hnodup : hasNatural20Duplicate combat = false)
    (hpos : 0 < 100 + maxListQ ((relatedCombatants combat updated.cid).map
      (fun c => c.initiative.getD 0))) :
    nat20DuplicateStep combat cid an m (some T) newId =
      some (mkDupEntry updated an newId (100 + maxListQ
        ((relatedCombatants combat updated.cid).map
          (fun c => c.initiative.getD 0)))) :=
  nat20DuplicateStep_creates combat cid newId an m T updated hnat hturn
    hfind hnodup hpos

/-- The combatant of spec Scenario B after adjustment: static bonus 0,
natural 20 boosted to initiative 30, `natural20Applied` set. -/
def scenBCombatant : Combatant :=
  ⟨1, [], some 30, false, false, none, none, true, false⟩

/-- Round-1 combat holding only `scenBCombatant`. -/
def scenBCombat : Combat := ⟨1, true, [scenBCombatant]⟩

/-- C5 witness (Scenario B): the adjusted combatant at initiative 30 with
no partitions gets one bonus entry at `100 + 30 = 130`. -/
theorem C5_nat20_bonus_entry_witness :
    nat20DuplicateStep scenBCombat 1 [] 0 (some 20) 7 =
      some (mkDupEntry scenBCombatant [] 7 (100 + maxListQ
        ((relatedCombatants scenBCombat 1).map
          (fun c => c.initiative.getD 0)))) ∧
    (100 : ℚ) + maxListQ ((relatedCombatants scenBCombat 1).map
      (fun c => c.initiative.getD 0)) = 130 := by
  constructor
  · exact C5_nat20_bonus_entry scenBCombat 1 7 [] 0 20 scenBCombatant
      (by norm_num [isNat20Rounded, jsRound, d20Raw]) rfl rfl rfl
      (by norm_num [relatedCombatants, scenBCombat, scenBCombatant, maxListQ])
  · norm_num [relatedCombatants, scenBCombat, scenBCombatant, maxListQ]

/-- Name of a partition entry of an actor called `Gnat 20`: it contains
the substring `nat 20` after lower-casing. -/
def gnatName : List Char :=
  ['G', 'n', 'a', 't', ' ', '2', '0', ' ', '-', ' ', '#', '2']

/-- A partition-tagged entry with the unlucky name. -/
def gnatPartition : Combatant :=
  ⟨2, gnatName, some 30, true, false, some 1, some 1, false, false⟩

/-- A combat advanced to round 2 holding the unlucky partition. -/
def cex6Combat : Combat := ⟨2, true, [gnatPartition]⟩

/-- C6 counterexample: on round 2 the expiry hook deletes the
partition-tagged combatant named `Gnat 20 - #2`, because it selects by
name containing `nat 20`, not by the `criticalBonus` metadata tag — the
claim that partition-tagged entries are untouched fails. -/
theorem C6_counterexample :
    gnatPartition.isPartition = true ∧
    gnatPartition.natural20Duplicate = false ∧
    roundExpiryDeletes s0 cex6Combat = [gnatPartition] := by
  refine ⟨rfl, rfl, ?_⟩
  rfl

/-- C6 (amended): on a round ≥ 2 notification the hook deletes exactly the
entries whose lower-cased name contains `nat 20` — a name test, not a tag
test.  Every entry the duplicate hook creates carries such a name, so all
module-created bonus entries are deleted, but a partition or ordinary
entry with a matching name is deleted too. -/
theorem C6_round_expiry (s : Settings) (combat : Combat) (c : Combatant)
    (hen : s.enabled = true) (hr : 2 ≤ combat.round) :
    (c ∈ roundExpiryDeletes s combat ↔
      c ∈ combat.combatants ∧ nameMatchesNat20 c.name = true) ∧
    (∀ (combat2 : Combat) (cid : ℕ) (an : List Char) (m : ℚ)
      (upd : Option ℚ) (newId : ℕ) (e : Combatant),
      nat20DuplicateStep combat2 cid an m upd newId = some e →
      nameMatchesNat20 e.name = true) ∧
    (applyCombatRoundHook s combat).combatants =
      combat.combatants.filter (fun d => !nameMatchesNat20 d.name) := by
  refine ⟨?_, ?_, ?_⟩
  · unfold roundExpiryDeletes
    rw [if_pos (by simp [hen, hr])]
    simp [List.mem_filter]
  · intro combat2 cid an m upd newId e h
    obtain ⟨updated, ini, rfl⟩ := nat20DuplicateStep_shape h
    exact nameMatchesNat20_mkDupName an
  · unfold applyCombatRoundHook
    rw [if_pos (by simp [hen, hr])]

/-- C6 witness: in the concrete round-2 combat the deletion set is exactly
the name-matching entries, and the suriving state is the name-filtered
list. -/
theorem C6_round_expiry_witness :
    ((gnatPartition ∈ roundExpiryDeletes s0 cex6Combat) ↔
      gnatPartition ∈ cex6Combat.combatants ∧
        nameMatchesNat20 gnatPartition.name = true) ∧
    (applyCombatRoundHook s0 cex6Combat).combatants =
      cex6Combat.combatants.filter (fun d => !nameMatchesNat20 d.name) :=
  ⟨(C6_round_expiry s0 cex6Combat gnatPartition rfl (by norm_num [cex6Combat])).1,
    (C6_round_expiry s0 cex6Combat gnatPartition rfl (by norm_num [cex6Combat])).2.2⟩

/-- Selector for the partition entries of a given original combatant. -/
def partOrigFilter (cid : ℕ) (c : Combatant) : Bool :=
  c.isPartition && c.originalId == some cid

/-- C7: synchronization first deletes every entry pointing at the original
(cleanup leaves no partition of it behind), then creates the planned
entries, so afterwards the partition set of the original is exactly the
new plan — no stale entry coexists with it.  The hypothesis rules out
entries carrying both module tags, which the module never creates. -/
theorem C7_sync_replaces (combat : Combat) (c : Combatant) (an : List Char)
    (fid : ℕ → ℕ) (plan : List (ℕ × ℚ))
    (hwf : ∀ d ∈ combat.combatants,
      ¬(d.isPartition = true ∧ d.natural20Duplicate = true)) :
    (cleanupPartitions combat c.cid).combatants.filter (partOrigFilter c.cid)
      = [] ∧
    (syncPartitions combat c an fid plan).combatants.filter
        (partOrigFilter c.cid) =
      plan.map (mkPartitionEntry c an fid) := by
  have hclean : (cleanupPartitions combat c.cid).combatants.filter
      (partOrigFilter c.cid) = [] := by
    unfold cleanupPartitions
    rw [List.filter_eq_nil_iff]
    intro a ha
    rw [List.mem_filter] at ha
    obtain ⟨hmem, hkeep⟩ := ha
    intro hp
    have hp' : a.isPartition = true ∧ (a.originalId == some c.cid) = true := by
      simpa [partOrigFilter] using hp
    have horig : a.originalId = some c.cid := by simpa using hp'.2
    have hk : ¬a.originalId = some c.cid ∨ a.natural20Duplicate = true := by
      simpa using hkeep
    rcases hk with hk | hk
    · exact hk horig
    · exact hwf a hmem ⟨hp'.1, hk⟩
  refine ⟨hclean, ?_⟩
  unfold syncPartitions
  rw [List.filter_append, hclean, List.nil_append]
  rw [List.filter_eq_self]
  intro a ha
  obtain ⟨q, _, rfl⟩ := List.mem_map.mp ha
  simp [mkPartitionEntry, partOrigFilter]

/-- The original combatant of the C7 witness. -/
def c7orig : Combatant := ⟨1, [], some 55, false, false, none, none, false, false⟩

/-- A stale partition of `c7orig` from a prior roll. -/
def c7stale : Combatant := ⟨5, [], some 11, true, false, some 1, some 1, false, false⟩

/-- Combat holding the original and its stale partition. -/
def c7combat : Combat := ⟨1, true, [c7orig, c7stale]⟩

/-- C7 witness: synchronizing `c7orig` with the one-entry plan `[(1, 30)]`
leaves exactly that entry as its partition set; the stale entry at
initiative 11 is gone. -/
theorem C7_sync_replaces_witness :
    (syncPartitions c7combat c7orig [] (fun i => 10 + i) [(1, 30)]).combatants.filter
        (partOrigFilter c7orig.cid) =
      [(1, 30)].map (mkPartitionEntry c7orig [] (fun i => 10 + i)) :=
  (C7_sync_replaces c7combat c7orig [] (fun i => 10 + i) [(1, 30)]
    (by
      intro d hd
      simp only [c7combat, List.mem_cons, List.not_mem_nil, or_false] at hd
      rcases hd with rfl | rfl <;> simp [c7orig, c7stale])).2

/-- An ordinary combatant sharing the combat of the C8 counterexample. -/
def c8orig : Combatant := ⟨1, [], some 5, false, false, none, none, false, false⟩

/-- A partition-tagged entry whose initiative the host updates to 20. -/
def c8part : Combatant := ⟨2, [], some 20, true, false, some 1, some 1, false, false⟩

/-- Round-1 combat holding both. -/
def cex8Combat : Combat := ⟨1, true, [c8orig, c8part]⟩

/-- C8 counterexample: the duplicate hook has no partition/duplicate-tag
and no `fromPartition` guard — an initiative update of 20 (modifier 0)
landing on the partition-tagged combatant makes it create an entry, so
the claim that no handler writes on a partition-tagged subject fails. -/
theorem C8_counterexample :
    c8part.isPartition = true ∧
    nat20DuplicateStep cex8Combat 2 [] 0 (some 20) 9 =
      some (mkDupEntry c8part [] 9 120) := by
  refine ⟨rfl, ?_⟩
  have h := nat20DuplicateStep_creates cex8Combat 2 9 [] 0 20 c8part
    (by norm_num [isNat20Rounded, jsRound, d20Raw]) rfl rfl rfl
    (by norm_num [relatedCombatants, cex8Combat, c8orig, c8part, maxListQ])
  rw [h]
  norm_num [relatedCombatants, cex8Combat, c8orig, c8part, maxListQ, mkDupEntry]

/-- C8 (amended): the critical-adjuster and partition handlers perform no
write on a notification whose subject carries the partition or natural-20
duplicate tag or that was produced by the module's own tagged writes; the
duplicate hook has no such guards and can create an entry from a
partition-tagged subject. -/
theorem C8_no_recursive_generation (s : Settings) (c : Combatant) (m : ℚ)
    (upd : Option ℚ) (fp : Bool)
    (h : c.isPartition = true ∨ c.natural20Duplicate = true ∨ fp = true) :
    adjusterStep s c m upd fp = none ∧ partitionHookPlan s c m upd fp = [] := by
  rcases h with h | h | h
  · exact ⟨adjusterStep_tagged s c m upd fp (by simp [h]),
      partitionHookPlan_tagged s c m upd fp (by simp [h])⟩
  · exact ⟨adjusterStep_tagged s c m upd fp (by simp [h]),
      partitionHookPlan_tagged s c m upd fp (by simp [h])⟩
  · subst h
    exact ⟨adjusterStep_fromPartition s c m upd,
      partitionHookPlan_fromPartition s c m upd⟩

/-- C8 witness: on the partition-tagged combatant the adjuster and the
partition hook both do nothing, even for a fresh-looking update. -/
theorem C8_no_recursive_generation_witness :
    adjusterStep s0 c8part 0 (some 20) false = none ∧
    partitionHookPlan s0 c8part 0 (some 20) false = [] :=
  C8_no_recursive_generation s0 c8part 0 (some 20) false (Or.inl rfl)

/-- C1 witness: the amended decomposition instantiated at total 20,
modifier 0. -/
theorem C1_roll_decomposition_witness :
    d20Raw 20 0 = 20 - 0 - 0 / 100 ∧
    (isNat20Unrounded 20 0 = true ↔ 20 ≤ d20Raw 20 0 ∧ d20Raw 20 0 < 21) ∧
    (isNat1Unrounded 20 0 = true ↔ 1 ≤ d20Raw 20 0 ∧ d20Raw 20 0 < 2) ∧
    (isNat20Rounded 20 0 = true ↔ jsRound (d20Raw 20 0) = 20) ∧
    (isNat20Unrounded 20 0 && isNat1Unrounded 20 0) = false :=
  C1_roll_decomposition 20 0

/-- C9 witness: the plan `[(1,30),(2,10)]` with the first create failing
still attempts and creates the second entry and logs index 1. -/
theorem C9_batch_failures_witness :
    runPartitionBatch false [(1, 30), (2, 10)] (fun i => i == 1) =
      some ([(2, 10)], [1]) := by
  rw [C9_batch_failures.1 [(1, 30), (2, 10)] (fun i => i == 1)]
  rfl

/-- C10 witness: the cap instantiated at the default settings. -/
theorem C10_partition_cap_witness :
    (partitionHookPlan s0 c0 50 (some 55) false).length ≤ 9 ∧
    (List.range' 1 (min s0.partitionCount 10 - 1)).length ≤ 9 :=
  C10_partition_cap s0 c0 50 (some 55) false

end MultInit
